import Mathlib

/-!
Verification of the ordered-collection-and-selection core of the judo
task manager.

The development is a shallow embedding of the relevant Rust sources:

- `src/db/ops.rs` : the Ordered Store operations on `TodoList` and
  `TodoItem` rows (create, rename, toggle, delete, move up and down).
  SQLite tables are modelled as Lean lists of rows; each SQL statement is
  translated into the corresponding pure list operation.  `Utc::now()` and
  the storage-assigned row id are passed in as explicit parameters.
- `src/ui/components/items.rs` : the items component gluing the Selection
  Cursor, the View Cache and the Ordered Store together.
- `src/app/events.rs` : the Enter-key commit handler of the add or modify
  item screen.
- `src/cli/ops.rs` : the list selector resolution used by the one-shot
  command line operations.

Rust `i64` values (ids, order keys) are modelled as `Int`; the programs
never rely on wraparound arithmetic for these (they are storage-assigned
ids and max-plus-one order keys), so unbounded integers are a faithful
model.  Timestamps are opaque `Int` values.
-/

/-- Priority of a todo item, from `src/db/models.rs`. -/
inductive Priority where
  | High
  | Medium
  | Low
deriving Repr, DecidableEq

/-- A row of the `todo_lists` table, from `src/db/models.rs`. -/
structure TodoList where
  id : Int
  name : String
  ordering : Int
  created_at : Int
  updated_at : Int
deriving Repr, DecidableEq

/-- A row of the `todo_items` table, from `src/db/models.rs`. -/
structure TodoItem where
  id : Int
  list_id : Int
  name : String
  is_done : Bool
  priority : Option Priority
  due_date : Option Int
  ordering : Int
  created_at : Int
  updated_at : Int
deriving Repr, DecidableEq

/-- Payload for creating a new list, from `src/db/models.rs`. -/
structure NewTodoList where
  name : String
deriving Repr, DecidableEq

/-- Payload for creating a new item, from `src/db/models.rs`. -/
structure NewTodoItem where
  list_id : Int
  name : String
  priority : Option Priority
  due_date : Option Int
deriving Repr, DecidableEq

/-- The `todo_lists` table: the list of its rows, in insertion order. -/
def ListsTable := List TodoList

/-- The `todo_items` table: the list of its rows, in insertion order. -/
def ItemsTable := List TodoItem

/-- `MAX(ordering)` of an SQL aggregate: `none` on an empty set of rows,
mirroring SQL returning NULL. -/
def maxOrd : List Int → Option Int
  | [] => none
  | x :: xs =>
    match maxOrd xs with
    | none => some x
    | some m => some (max x m)

/-- `SELECT ... ORDER BY ordering DESC LIMIT 1` on a set of item rows:
the row carrying the greatest order key (under unique keys). -/
def argmaxOrd : List TodoItem → Option TodoItem
  | [] => none
  | x :: xs =>
    match argmaxOrd xs with
    | none => some x
    | some y => if x.ordering < y.ordering then some y else some x

/-- `SELECT ... ORDER BY ordering ASC LIMIT 1` on a set of item rows:
the row carrying the least order key (under unique keys). -/
def argminOrd : List TodoItem → Option TodoItem
  | [] => none
  | x :: xs =>
    match argminOrd xs with
    | none => some x
    | some y => if y.ordering < x.ordering then some y else some x

/-- Comparison of item rows by order key, the sort key of
`ORDER BY ordering` in `TodoItem::get_by_list_id`. -/
def itemLe (a b : TodoItem) : Prop := a.ordering ≤ b.ordering

instance : DecidableRel itemLe := fun a b =>
  (inferInstance : Decidable (a.ordering ≤ b.ordering))

instance : IsTotal TodoItem itemLe := ⟨fun a b => Int.le_total a.ordering b.ordering⟩

instance : IsTrans TodoItem itemLe := ⟨fun _ _ _ hab hbc => le_trans hab hbc⟩

namespace TodoList

/-- `TodoList::create` (src/db/ops.rs, lines 10-37): computes
`COALESCE(MAX(ordering), 0) + 1` over the whole `todo_lists` table and
inserts the new row with that order key.  `now` models `Utc::now()`,
`newId` the storage-assigned row id. -/
def create (db : List TodoList) (new_list : NewTodoList) (now newId : Int) :
    TodoList × List TodoList :=
  let next_ordering : Int := (maxOrd (db.map (fun l => l.ordering))).getD 0 + 1
  let row : TodoList :=
    { id := newId, name := new_list.name, ordering := next_ordering,
      created_at := now, updated_at := now }
  (row, db ++ [row])

/-- `TodoList::get_all` (src/db/ops.rs): all rows ordered by `ordering`. -/
def get_all (db : List TodoList) : List TodoList :=
  List.insertionSort (fun a b => a.ordering ≤ b.ordering) db

/-- `TodoList::get_by_id` (src/db/ops.rs): the row with the given id, if any. -/
def get_by_id (db : List TodoList) (i : Int) : Option TodoList :=
  db.find? (fun l => l.id = i)

/-- `TodoList::update_name` (src/db/ops.rs, lines 65-79): sets name and
`updated_at` of the row with this id, and writes the same fields through to
the in-memory record. -/
def update_name (self : TodoList) (db : List TodoList) (new_name : String)
    (now : Int) : TodoList × List TodoList :=
  let db' := db.map (fun l =>
    if l.id = self.id then { l with name := new_name, updated_at := now } else l)
  ({ self with name := new_name, updated_at := now }, db')

/-- One `UPDATE todo_lists SET ordering = v WHERE id = i` statement. -/
def set_ordering (db : List TodoList) (i v : Int) : List TodoList :=
  db.map (fun l => if l.id = i then { l with ordering := v } else l)

/-- The `SELECT id, ordering FROM todo_lists WHERE ordering < ?1 ORDER BY
ordering DESC LIMIT 1` query of `TodoList::move_up`. -/
def find_prev (db : List TodoList) (ord : Int) : Option (Int × Int) :=
  let cands := db.filter (fun l => l.ordering < ord)
  (cands.foldr (fun x acc =>
    match acc with
    | none => some x
    | some y => if x.ordering < y.ordering then some y else some x) none).map
      (fun l => (l.id, l.ordering))

/-- `TodoList::move_up` (src/db/ops.rs, lines 93-123): find the row with
the next lower order key; if none, a no-op; otherwise swap the two order
keys with two UPDATE statements and update the in-memory record. -/
def move_up (self : TodoList) (db : List TodoList) : TodoList × List TodoList :=
  match find_prev db self.ordering with
  | none => (self, db)
  | some (prev_id, prev_ordering) =>
    let db1 := set_ordering db prev_id self.ordering
    let db2 := set_ordering db1 self.id prev_ordering
    ({ self with ordering := prev_ordering }, db2)

end TodoList

namespace TodoItem

/-- `TodoItem::create` (src/db/ops.rs, lines 161-192): computes
`COALESCE(MAX(ordering), 0) + 1` over the rows of the target list and
inserts the new row with that order key and `is_done = FALSE`. -/
def create (db : List TodoItem) (new_item : NewTodoItem) (now newId : Int) :
    TodoItem × List TodoItem :=
  let next_ordering : Int :=
    (maxOrd ((db.filter (fun x => x.list_id = new_item.list_id)).map
      (fun x => x.ordering))).getD 0 + 1
  let row : TodoItem :=
    { id := newId, list_id := new_item.list_id, name := new_item.name,
      is_done := false, priority := new_item.priority,
      due_date := new_item.due_date, ordering := next_ordering,
      created_at := now, updated_at := now }
  (row, db ++ [row])

/-- `TodoItem::get_by_list_id` (src/db/ops.rs): the rows of one list,
ordered ascending by order key. -/
def get_by_list_id (db : List TodoItem) (lid : Int) : List TodoItem :=
  List.insertionSort itemLe (db.filter (fun x => x.list_id = lid))

/-- `TodoItem::update_name` (src/db/ops.rs, lines 230-245): sets name and
`updated_at` of the row with this id, and writes the same fields through to
the in-memory record. -/
def update_name (self : TodoItem) (db : List TodoItem) (new_name : String)
    (now : Int) : TodoItem × List TodoItem :=
  let db' := db.map (fun x =>
    if x.id = self.id then { x with name := new_name, updated_at := now } else x)
  ({ self with name := new_name, updated_at := now }, db')

/-- `TodoItem::toggle_done` (src/db/ops.rs, lines 248-264): flips the
completion flag of the row with this id and writes it through. -/
def toggle_done (self : TodoItem) (db : List TodoItem) (now : Int) :
    TodoItem × List TodoItem :=
  let new_status := !self.is_done
  let db' := db.map (fun x =>
    if x.id = self.id then { x with is_done := new_status, updated_at := now } else x)
  ({ self with is_done := new_status, updated_at := now }, db')

/-- `TodoItem::delete` (src/db/ops.rs): `DELETE FROM todo_items WHERE id = ?1`. -/
def delete (self : TodoItem) (db : List TodoItem) : List TodoItem :=
  db.filter (fun x => x.id ≠ self.id)

/-- One `UPDATE todo_items SET ordering = v WHERE id = i` statement. -/
def set_ordering (db : List TodoItem) (i v : Int) : List TodoItem :=
  db.map (fun x => if x.id = i then { x with ordering := v } else x)

/-- The `SELECT id, ordering FROM todo_items WHERE list_id = ?1 AND
ordering < ?2 ORDER BY ordering DESC LIMIT 1` query of `TodoItem::move_up`. -/
def find_prev (db : List TodoItem) (lid ord : Int) : Option (Int × Int) :=
  (argmaxOrd (db.filter (fun x => x.list_id = lid ∧ x.ordering < ord))).map
    (fun x => (x.id, x.ordering))

/-- The `SELECT id, ordering FROM todo_items WHERE list_id = ?1 AND
ordering > ?2 ORDER BY ordering ASC LIMIT 1` query of `TodoItem::move_down`. -/
def find_next (db : List TodoItem) (lid ord : Int) : Option (Int × Int) :=
  (argminOrd (db.filter (fun x => x.list_id = lid ∧ ord < x.ordering))).map
    (fun x => (x.id, x.ordering))

/-- `TodoItem::move_up` (src/db/ops.rs, lines 321-352): find the row of the
same list with the next lower order key; if none, a no-op; otherwise swap
the two order keys with two UPDATE statements and update the in-memory
record. -/
def move_up (self : TodoItem) (db : List TodoItem) : TodoItem × List TodoItem :=
  match find_prev db self.list_id self.ordering with
  | none => (self, db)
  | some (prev_id, prev_ordering) =>
    let db1 := set_ordering db prev_id self.ordering
    let db2 := set_ordering db1 self.id prev_ordering
    ({ self with ordering := prev_ordering }, db2)

/-- `TodoItem::move_down` (src/db/ops.rs, lines 355-386): find the row of
the same list with the next higher order key; if none, a no-op; otherwise
swap the two order keys with two UPDATE statements and update the
in-memory record. -/
def move_down (self : TodoItem) (db : List TodoItem) : TodoItem × List TodoItem :=
  match find_next db self.list_id self.ordering with
  | none => (self, db)
  | some (next_id, next_ordering) =>
    let db1 := set_ordering db next_id self.ordering
    let db2 := set_ordering db1 self.id next_ordering
    ({ self with ordering := next_ordering }, db2)

end TodoItem

/-!
## The items component (`src/ui/components/items.rs`)

`UIList` carries the View Cache slice for one list together with the
element Selection Cursor.  The ratatui `ListState` is modelled by its
selected index alone (`Option Nat`); its scroll offset is presentation
only.  The per-item `ListState` carried by the Rust `UIItem` wrapper is
never read by any logic (it is reset or copied wholesale on refresh), so
items are stored directly as rows.

The component functions index `ui_list.items[j]`; an out-of-bounds index
panics in Rust, which the model renders as `none`.
-/

/-- The cached view of one list: the list row, the element cursor and the
cached item rows, from `src/db/models.rs` (`UIList`). -/
structure UIList where
  list : TodoList
  item_state : Option Nat
  items : List TodoItem
deriving Repr, DecidableEq

namespace UIList

/-- `UIList::update_items` (src/db/ops.rs, lines 423-439): re-fetch the
rows of this list, keeping the cursor state. -/
def update_items (ui : UIList) (db : List TodoItem) : UIList :=
  { ui with items := TodoItem.get_by_list_id db ui.list.id }

end UIList

namespace ItemsComponent

/-- Modelled from the spec: `ItemsComponent::select_next_item` delegates to
ratatui `ListState::select_next`, whose net effect (after the clamping the
render pass applies) the spec describes in 4.3 as moving the element cursor
one step forward, clamped at the end, a no-op on an empty collection.  The
ratatui source is not part of the repository. -/
def select_next_item (ui : UIList) : UIList :=
  if ui.items.isEmpty then ui
  else
    match ui.item_state with
    | none => { ui with item_state := some 0 }
    | some j => { ui with item_state := some (min (j + 1) (ui.items.length - 1)) }

/-- Modelled from the spec: `ItemsComponent::select_previous_item`
delegates to ratatui `ListState::select_previous`; per spec 4.3 the cursor
moves one step back, clamped at the start, a no-op on an empty
collection. -/
def select_previous_item (ui : UIList) : UIList :=
  if ui.items.isEmpty then ui
  else
    match ui.item_state with
    | none => { ui with item_state := some (ui.items.length - 1) }
    | some j => { ui with item_state := some (j - 1) }

/-- `ItemsComponent::remove_item_selection` (src/ui/components/items.rs):
clears the element cursor. -/
def remove_item_selection (ui : UIList) : UIList :=
  { ui with item_state := none }

/-- Modelled from the spec: `ItemsComponent::select_first_item` delegates
to ratatui `ListState::select_first`; per spec 4.3 it selects the first
element, a no-op on an empty collection. -/
def select_first_item (ui : UIList) : UIList :=
  if ui.items.isEmpty then ui else { ui with item_state := some 0 }

/-- Modelled from the spec: `ItemsComponent::select_last_item` delegates to
ratatui `ListState::select_last`; per spec 4.3 it selects the last element,
a no-op on an empty collection. -/
def select_last_item (ui : UIList) : UIList :=
  if ui.items.isEmpty then ui
  else { ui with item_state := some (ui.items.length - 1) }

/-- `ItemsComponent::toggle_item_done` (src/ui/components/items.rs, lines
63-68): with a selected element, toggle its completion flag in storage and
in the cached row; with no selection, do nothing and succeed. -/
def toggle_item_done (ui : UIList) (db : List TodoItem) (now : Int) :
    Option (UIList × List TodoItem) :=
  match ui.item_state with
  | none => some (ui, db)
  | some j =>
    match ui.items.get? j with
    | none => none
    | some it =>
      let (it', db') := TodoItem.toggle_done it db now
      some ({ ui with items := ui.items.set j it' }, db')

/-- `ItemsComponent::create_item` (src/ui/components/items.rs, lines
71-82): create the item in storage, then refresh the cached rows. -/
def create_item (ui : UIList) (name : String) (db : List TodoItem)
    (now newId : Int) : UIList × List TodoItem :=
  let new_item : NewTodoItem :=
    { name := name, list_id := ui.list.id, priority := none, due_date := none }
  let (_, db') := TodoItem.create db new_item now newId
  (ui.update_items db', db')

/-- `ItemsComponent::update_item` (src/ui/components/items.rs, lines
85-94): with a selected element, rename it in storage and refresh the
cached rows; with no selection, do nothing and succeed. -/
def update_item (ui : UIList) (name : String) (db : List TodoItem)
    (now : Int) : Option (UIList × List TodoItem) :=
  match ui.item_state with
  | none => some (ui, db)
  | some j =>
    match ui.items.get? j with
    | none => none
    | some it =>
      let (_, db') := TodoItem.update_name it db name now
      some (ui.update_items db', db')

/-- `ItemsComponent::delete_selected_item` (src/ui/components/items.rs,
lines 97-113): with a selected element, delete it in storage, refresh the
cached rows, then repair the cursor: clear it on an empty collection, clamp
it to the new last index when past the end, leave it otherwise. -/
def delete_selected_item (ui : UIList) (db : List TodoItem) :
    Option (UIList × List TodoItem) :=
  match ui.item_state with
  | none => some (ui, db)
  | some j =>
    match ui.items.get? j with
    | none => none
    | some it =>
      let db' := TodoItem.delete it db
      let ui1 := ui.update_items db'
      let ui2 :=
        if ui1.items.isEmpty then { ui1 with item_state := none }
        else if ui1.items.length ≤ j then
          { ui1 with item_state := some (ui1.items.length - 1) }
        else ui1
      some (ui2, db')

/-- `ItemsComponent::move_selected_item_up` (src/ui/components/items.rs,
lines 116-130): with a selected element, move it up in storage, refresh
the cached rows, and decrement the cursor when it was not at index 0. -/
def move_selected_item_up (ui : UIList) (db : List TodoItem) :
    Option (UIList × List TodoItem) :=
  match ui.item_state with
  | none => some (ui, db)
  | some j =>
    match ui.items.get? j with
    | none => none
    | some it =>
      let (_, db') := TodoItem.move_up it db
      let ui1 := ui.update_items db'
      let ui2 := if 0 < j then { ui1 with item_state := some (j - 1) } else ui1
      some (ui2, db')

/-- `ItemsComponent::move_selected_item_down` (src/ui/components/items.rs,
lines 133-147): with a selected element, move it down in storage, refresh
the cached rows, and increment the cursor when it stays within the
refreshed collection. -/
def move_selected_item_down (ui : UIList) (db : List TodoItem) :
    Option (UIList × List TodoItem) :=
  match ui.item_state with
  | none => some (ui, db)
  | some j =>
    match ui.items.get? j with
    | none => none
    | some it =>
      let (_, db') := TodoItem.move_down it db
      let ui1 := ui.update_items db'
      let ui2 :=
        if j + 1 < ui1.items.length then { ui1 with item_state := some (j + 1) }
        else ui1
      some (ui2, db')

end ItemsComponent

/-!
## The add-or-modify-item screen handler (`src/app/events.rs`)

Only the Enter (commit) arm of
`EventHandler::handle_add_or_modify_item_screen_key` is embedded; the other
arms edit the text buffer or leave the screen and play no part in the
commit claims.  The surrounding `App` state and the lists component live in
files that are not among the sources (`app/state.rs`,
`ui/components/lists.rs`); the parts of them this handler touches are
modelled from the spec where noted.
-/

/-- The text input state, from `src/ui/components/input_states.rs`
(`InputState`). -/
structure InputState where
  current_input : String
  cursor_pos : Nat
  is_modifying : Bool
deriving Repr, DecidableEq

/-- Modelled from the spec: the screen state machine of 4.4 (`Browsing`,
container and element editing, store selection and creation); the Rust
`CurrentScreen` enumeration lives in `app/state.rs`, which is not among the
sources. -/
inductive CurrentScreen where
  | Main
  | AddList
  | AddItem
  | ChangeDB
  | AddDB
deriving Repr, DecidableEq

/-- Modelled from the spec: the lists component of 4.3, a container cursor
over the snapshot of cached lists; `ui/components/lists.rs` is not among
the sources. -/
structure ListsComponent where
  lists : List UIList
  state : Option Nat
deriving Repr, DecidableEq

namespace ListsComponent

/-- Modelled from the spec: `get_selected_list_mut` yields the cached list
the container cursor points at, `None` when nothing valid is selected.
The index is returned alongside so a caller can write the list back. -/
def get_selected (lc : ListsComponent) : Option (Nat × UIList) :=
  match lc.state with
  | none => none
  | some i =>
    match lc.lists.get? i with
    | none => none
    | some ui => some (i, ui)

/-- Write an updated cached list back at its index. -/
def set_at (lc : ListsComponent) (i : Nat) (ui : UIList) : ListsComponent :=
  { lc with lists := lc.lists.set i ui }

end ListsComponent

/-- The application state visible to the item screen handler: the screen
discriminant, the shared input buffer and the lists component.  The
storage pool is passed separately as the items table. -/
structure App where
  current_screen : CurrentScreen
  input_state : InputState
  lists_component : ListsComponent
deriving Repr, DecidableEq

namespace InputState

/-- Modelled from the spec: `clear` empties the text buffer after a commit
(4.4); the Rust helper lives in `ui/cursor.rs`, which is not among the
sources. -/
def clear (s : InputState) : InputState :=
  { s with current_input := "", cursor_pos := 0 }

end InputState

/-- The blank test `item_name.trim().is_empty()` of the commit handlers:
the trimmed text is empty exactly when every character of the buffer is
whitespace, which is how it is rendered here (`String.trim` is defined by
position recursion that the kernel cannot evaluate).  The whitespace
classes agree on the characters this interface can produce. -/
def String.isBlank (s : String) : Bool := s.data.all Char.isWhitespace

namespace EventHandler

/-- The Enter arm of `EventHandler::handle_add_or_modify_item_screen_key`
(src/app/events.rs, lines 210-234): read the buffer; when its trimmed text
is non-blank and a list is selected, rename the selected item or create a
new one, then return to the main screen and clear the buffer (selecting
the new item first when creating); otherwise change nothing. -/
def handle_item_screen_enter (app : App) (db : List TodoItem)
    (now newId : Int) : App × List TodoItem :=
  let item_name := app.input_state.current_input
  if String.isBlank item_name then (app, db)
  else
    match app.lists_component.get_selected with
    | none => (app, db)
    | some (i, selected_list) =>
      if app.input_state.is_modifying then
        match ItemsComponent.update_item selected_list item_name db now with
        | none => (app, db)
        | some (ui', db') =>
          ({ app with
              lists_component := app.lists_component.set_at i ui',
              current_screen := CurrentScreen.Main,
              input_state := app.input_state.clear }, db')
      else
        let (ui', db') :=
          ItemsComponent.create_item selected_list item_name db now newId
        let ui'' := ItemsComponent.select_last_item ui'
        ({ app with
            lists_component := app.lists_component.set_at i ui'',
            current_screen := CurrentScreen.Main,
            input_state := app.input_state.clear }, db')

end EventHandler

/-!
## The command line list selector (`src/cli/ops.rs`)

`get_list_by_name_or_id` resolves a list from an optional name and an
optional id: it first opens the database pool (which creates the database
file when missing), then matches on the selector pair; on an invalid pair
or a missed lookup it prints an error and terminates the process with
`exitcode::DATAERR`.  The model records the storage interactions the
function performs, in order, and whether it returns or exits.
-/

/-- A storage interaction the command line selector can perform. -/
inductive StorageOp where
  | poolOpen
  | queryListById (i : Int)
  | queryAllLists
deriving Repr, DecidableEq

/-- The outcome of a command line helper: a returned value or a process
exit with the given code (`std::process::exit`). -/
inductive CliResult (α : Type) where
  | ok (a : α)
  | exited (code : Int)
deriving Repr, DecidableEq

/-- `exitcode::DATAERR`. -/
def DATAERR : Int := 65

/-- `get_list_by_name_or_id` (src/cli/ops.rs, lines 263-314): the
configuration lookup touches no storage; the pool is then opened, and the
selector pair is matched: exactly one of id and name drives a query, while
both or neither terminate the process with `DATAERR` after the pool was
already opened.  Returns the outcome with the ordered storage trace. -/
def get_list_by_name_or_id (lists : List TodoList) (name : Option String)
    (id : Option Int) : CliResult TodoList × List StorageOp :=
  let ops0 := [StorageOp.poolOpen]
  match id, name with
  | some list_id, none =>
    (match TodoList.get_by_id lists list_id with
     | some l => (CliResult.ok l, ops0 ++ [StorageOp.queryListById list_id])
     | none => (CliResult.exited DATAERR, ops0 ++ [StorageOp.queryListById list_id]))
  | none, some list_name =>
    (match (TodoList.get_all lists).find? (fun l => l.name = list_name) with
     | some l => (CliResult.ok l, ops0 ++ [StorageOp.queryAllLists])
     | none => (CliResult.exited DATAERR, ops0 ++ [StorageOp.queryAllLists]))
  | some _, some _ => (CliResult.exited DATAERR, ops0)
  | none, none => (CliResult.exited DATAERR, ops0)

/-!
## General lemmas about the query primitives
-/

theorem maxOrd_eq_none {l : List Int} : maxOrd l = none ↔ l = [] := by
  cases l with
  | nil => simp [maxOrd]
  | cons x xs =>
    simp only [maxOrd]
    cases h : maxOrd xs <;> simp

theorem maxOrd_spec : ∀ {l : List Int} {m : Int}, maxOrd l = some m →
    m ∈ l ∧ ∀ x ∈ l, x ≤ m := by
  intro l
  induction l with
  | nil => intro m h; simp [maxOrd] at h
  | cons x xs ih =>
    intro m h
    simp only [maxOrd] at h
    cases hx : maxOrd xs with
    | none =>
      rw [hx] at h
      cases h
      refine ⟨List.mem_cons_self x xs, ?_⟩
      intro y hy
      rcases List.mem_cons.mp hy with rfl | hy
      · exact le_refl _
      · rw [maxOrd_eq_none.mp hx] at hy
        simp at hy
    | some m0 =>
      rw [hx] at h
      cases h
      obtain ⟨hmem, hge⟩ := ih hx
      constructor
      · rcases max_choice x m0 with hc | hc <;> rw [hc]
        · exact List.mem_cons_self x xs
        · exact List.mem_cons_of_mem x hmem
      · intro y hy
        rcases List.mem_cons.mp hy with rfl | hy
        · exact le_max_left _ _
        · exact le_trans (hge y hy) (le_max_right _ _)

theorem argmaxOrd_eq_none {l : List TodoItem} : argmaxOrd l = none ↔ l = [] := by
  cases l with
  | nil => simp [argmaxOrd]
  | cons x xs =>
    simp only [argmaxOrd]
    cases h : argmaxOrd xs
    · simp
    · simp only [List.cons_ne_nil, iff_false]
      split <;> simp

theorem argmaxOrd_spec : ∀ {l : List TodoItem} {y : TodoItem},
    argmaxOrd l = some y → y ∈ l ∧ ∀ z ∈ l, z.ordering ≤ y.ordering := by
  intro l
  induction l with
  | nil => intro y h; simp [argmaxOrd] at h
  | cons x xs ih =>
    intro y h
    cases hx : argmaxOrd xs with
    | none =>
      simp only [argmaxOrd, hx] at h
      cases h
      refine ⟨List.mem_cons_self x xs, ?_⟩
      intro z hz
      rcases List.mem_cons.mp hz with rfl | hz
      · exact le_refl _
      · rw [argmaxOrd_eq_none.mp hx] at hz
        simp at hz
    | some y0 =>
      simp only [argmaxOrd, hx] at h
      obtain ⟨hmem, hge⟩ := ih hx
      by_cases hlt : x.ordering < y0.ordering
      · rw [if_pos hlt] at h
        cases h
        refine ⟨List.mem_cons_of_mem x hmem, ?_⟩
        intro z hz
        rcases List.mem_cons.mp hz with rfl | hz
        · exact le_of_lt hlt
        · exact hge z hz
      · rw [if_neg hlt] at h
        cases h
        refine ⟨List.mem_cons_self x xs, ?_⟩
        intro z hz
        rcases List.mem_cons.mp hz with rfl | hz
        · exact le_refl _
        · exact le_trans (hge z hz) (le_of_not_lt hlt)

theorem argminOrd_eq_none {l : List TodoItem} : argminOrd l = none ↔ l = [] := by
  cases l with
  | nil => simp [argminOrd]
  | cons x xs =>
    simp only [argminOrd]
    cases h : argminOrd xs
    · simp
    · simp only [List.cons_ne_nil, iff_false]
      split <;> simp

theorem argminOrd_spec : ∀ {l : List TodoItem} {y : TodoItem},
    argminOrd l = some y → y ∈ l ∧ ∀ z ∈ l, y.ordering ≤ z.ordering := by
  intro l
  induction l with
  | nil => intro y h; simp [argminOrd] at h
  | cons x xs ih =>
    intro y h
    cases hx : argminOrd xs with
    | none =>
      simp only [argminOrd, hx] at h
      cases h
      refine ⟨List.mem_cons_self x xs, ?_⟩
      intro z hz
      rcases List.mem_cons.mp hz with rfl | hz
      · exact le_refl _
      · rw [argminOrd_eq_none.mp hx] at hz
        simp at hz
    | some y0 =>
      simp only [argminOrd, hx] at h
      obtain ⟨hmem, hle⟩ := ih hx
      by_cases hlt : y0.ordering < x.ordering
      · rw [if_pos hlt] at h
        cases h
        refine ⟨List.mem_cons_of_mem x hmem, ?_⟩
        intro z hz
        rcases List.mem_cons.mp hz with rfl | hz
        · exact le_of_lt hlt
        · exact hle z hz
      · rw [if_neg hlt] at h
        cases h
        refine ⟨List.mem_cons_self x xs, ?_⟩
        intro z hz
        rcases List.mem_cons.mp hz with rfl | hz
        · exact le_refl _
        · exact le_trans (le_of_not_lt hlt) (hle z hz)

theorem pairwise_ne_inj {α β : Type} {f : α → β} :
    ∀ {l : List α}, l.Pairwise (fun x y => f x ≠ f y) →
      ∀ x ∈ l, ∀ y ∈ l, f x = f y → x = y := by
  intro l
  induction l with
  | nil => intro _ x hx; simp at hx
  | cons a t ih =>
    intro hp x hx y hy hf
    rw [List.pairwise_cons] at hp
    obtain ⟨ha, hp⟩ := hp
    rcases List.mem_cons.mp hx with rfl | hx2
    · rcases List.mem_cons.mp hy with rfl | hy2
      · rfl
      · exact (ha y hy2 hf).elim
    · rcases List.mem_cons.mp hy with rfl | hy2
      · exact (ha x hx2 hf.symm).elim
      · exact ih hp x hx2 y hy2 hf

theorem length_filter_map_eq {f : TodoItem → TodoItem} {p : TodoItem → Bool}
    (hf : ∀ x, p (f x) = p x) (db : List TodoItem) :
    ((db.map f).filter p).length = (db.filter p).length := by
  rw [List.filter_map, List.length_map]
  exact congrArg List.length (List.filter_congr (fun x _ => hf x))

theorem length_get_by_list_id (db : List TodoItem) (lid : Int) :
    (TodoItem.get_by_list_id db lid).length =
      (db.filter (fun x => x.list_id = lid)).length := by
  unfold TodoItem.get_by_list_id
  exact (List.perm_insertionSort itemLe _).length_eq

theorem mem_get_by_list_id {db : List TodoItem} {lid : Int} {x : TodoItem} :
    x ∈ TodoItem.get_by_list_id db lid ↔ x ∈ db ∧ x.list_id = lid := by
  unfold TodoItem.get_by_list_id
  rw [List.mem_insertionSort, List.mem_filter]
  simp

theorem sorted_get_by_list_id (db : List TodoItem) (lid : Int) :
    List.Sorted itemLe (TodoItem.get_by_list_id db lid) :=
  List.sorted_insertionSort itemLe _

theorem perm_get_by_list_id (db : List TodoItem) (lid : Int) :
    (TodoItem.get_by_list_id db lid).Perm
      (db.filter (fun x => x.list_id = lid)) :=
  List.perm_insertionSort itemLe _

/-!
## Claim theorems
-/

/-- Claim C10: every element-scoped operation invoked while no element is
selected (the element cursor is `None`) — toggle completion, delete
selected, update selected, move selected up or down — is a no-op that
returns success and leaves the persisted store, the snapshot and the
cursor unchanged. -/
theorem unselected_ops_are_noops (ui : UIList) (db : List TodoItem)
    (now : Int) (name : String) (h : ui.item_state = none) :
    ItemsComponent.toggle_item_done ui db now = some (ui, db) ∧
    ItemsComponent.delete_selected_item ui db = some (ui, db) ∧
    ItemsComponent.update_item ui name db now = some (ui, db) ∧
    ItemsComponent.move_selected_item_up ui db = some (ui, db) ∧
    ItemsComponent.move_selected_item_down ui db = some (ui, db) := by
  refine ⟨?_, ?_, ?_, ?_, ?_⟩ <;>
    simp [ItemsComponent.toggle_item_done, ItemsComponent.delete_selected_item,
      ItemsComponent.update_item, ItemsComponent.move_selected_item_up,
      ItemsComponent.move_selected_item_down, h]

/-- A sample list row used by the witnesses. -/
def sampleList : TodoList :=
  { id := 1, name := "groceries", ordering := 1, created_at := 0, updated_at := 0 }

/-- A sample cached view with no element selected. -/
def sampleUINone : UIList :=
  { list := sampleList, item_state := none, items := [] }

/-- Witness for C10 at a concrete unselected view. -/
theorem unselected_ops_are_noops_witness :
    ItemsComponent.toggle_item_done sampleUINone [] 7 = some (sampleUINone, []) ∧
    ItemsComponent.delete_selected_item sampleUINone [] = some (sampleUINone, []) ∧
    ItemsComponent.update_item sampleUINone "bread" [] 7 = some (sampleUINone, []) ∧
    ItemsComponent.move_selected_item_up sampleUINone [] = some (sampleUINone, []) ∧
    ItemsComponent.move_selected_item_down sampleUINone [] = some (sampleUINone, []) :=
  unselected_ops_are_noops sampleUINone [] 7 "bread" rfl

/-- Claim C5: after the element at cursor position `j` is deleted and the
snapshot refreshed, an empty collection clears the cursor; `j` at or past
the new last valid index clamps it to `Some(len - 1)`; otherwise the
cursor stays at `Some j`. -/
theorem delete_repairs_cursor (ui : UIList) (db : List TodoItem) (j : Nat)
    (it : TodoItem) (hsel : ui.item_state = some j)
    (hget : ui.items.get? j = some it) :
    ∃ ui' db', ItemsComponent.delete_selected_item ui db = some (ui', db') ∧
      (ui'.items = [] → ui'.item_state = none) ∧
      (ui'.items ≠ [] → ui'.items.length - 1 ≤ j →
        ui'.item_state = some (ui'.items.length - 1)) ∧
      (ui'.items ≠ [] → j < ui'.items.length - 1 → ui'.item_state = some j) := by
  simp only [ItemsComponent.delete_selected_item, UIList.update_items, hsel, hget]
  by_cases hE : (TodoItem.get_by_list_id (TodoItem.delete it db) ui.list.id).isEmpty
  · rw [if_pos hE]
    refine ⟨_, _, rfl, ?_, ?_, ?_⟩
    · intro _; rfl
    · intro hne _; exact absurd (List.isEmpty_iff.mp hE) hne
    · intro hne _; exact absurd (List.isEmpty_iff.mp hE) hne
  · rw [if_neg hE]
    by_cases hLe : (TodoItem.get_by_list_id (TodoItem.delete it db) ui.list.id).length ≤ j
    · rw [if_pos hLe]
      refine ⟨_, _, rfl, ?_, ?_, ?_⟩
      · intro h0
        exact absurd (List.isEmpty_iff.mpr h0) hE
      · intro _ _; rfl
      · intro _ hlt
        dsimp only at hlt
        omega
    · rw [if_neg hLe]
      refine ⟨_, _, rfl, ?_, ?_, ?_⟩
      · intro h0
        exact absurd (List.isEmpty_iff.mpr h0) hE
      · intro _ hle2
        dsimp only at hle2 ⊢
        have hj : j = (TodoItem.get_by_list_id (TodoItem.delete it db) ui.list.id).length - 1 := by
          omega
        rw [hj]
      · intro _ _; rfl

/-- A sample item row constructor for witnesses. -/
def sampleItem (i ord : Int) : TodoItem :=
  { id := i, list_id := 1, name := "task", is_done := false, priority := none,
    due_date := none, ordering := ord, created_at := 0, updated_at := 0 }

/-- A sample cached view selecting index 1 of two cached items. -/
def sampleUIDel : UIList :=
  { list := sampleList, item_state := some 1,
    items := [sampleItem 10 1, sampleItem 11 2] }

/-- Witness for C5: deleting the selected last element of a two-element
collection. -/
theorem delete_repairs_cursor_witness :
    ∃ ui' db',
      ItemsComponent.delete_selected_item sampleUIDel
        [sampleItem 10 1, sampleItem 11 2] = some (ui', db') ∧
      (ui'.items = [] → ui'.item_state = none) ∧
      (ui'.items ≠ [] → ui'.items.length - 1 ≤ 1 →
        ui'.item_state = some (ui'.items.length - 1)) ∧
      (ui'.items ≠ [] → 1 < ui'.items.length - 1 → ui'.item_state = some 1) :=
  delete_repairs_cursor sampleUIDel [sampleItem 10 1, sampleItem 11 2] 1
    (sampleItem 11 2) rfl rfl

/-- Claim C7: a commit (Enter) on the add-or-modify-item screen with a
blank (empty or whitespace-only) buffer performs no storage call, leaves
the screen in the same editing mode and leaves the input buffer unchanged:
the whole application state and the store are returned untouched. -/
theorem blank_commit_is_noop (app : App) (db : List TodoItem)
    (now newId : Int) (_hscreen : app.current_screen = CurrentScreen.AddItem)
    (hblank : String.isBlank app.input_state.current_input = true) :
    EventHandler.handle_item_screen_enter app db now newId = (app, db) := by
  simp only [EventHandler.handle_item_screen_enter, hblank]
  rfl

/-- A sample application state on the add-item screen with a
whitespace-only buffer. -/
def sampleAppBlank : App :=
  { current_screen := CurrentScreen.AddItem,
    input_state := { current_input := "   ", cursor_pos := 1, is_modifying := false },
    lists_component := { lists := [sampleUIDel], state := some 0 } }

/-- Witness for C7 at a whitespace-only buffer. -/
theorem blank_commit_is_noop_witness :
    EventHandler.handle_item_screen_enter sampleAppBlank [sampleItem 10 1] 9 42 =
      (sampleAppBlank, [sampleItem 10 1]) :=
  blank_commit_is_noop sampleAppBlank [sampleItem 10 1] 9 42 rfl (by decide)

/-- Counterexample for C8 as stated: with both a name and an id supplied,
`get_list_by_name_or_id` does not return at all — it terminates the
process with `DATAERR` — and a storage interaction (opening the pool,
which creates the database file when missing) precedes the rejection, so
the storage trace at the rejection point is not empty. -/
theorem invalid_selector_counterexample :
    (get_list_by_name_or_id [] (some "a") (some 1)).2 ≠ ([] : List StorageOp) ∧
    (get_list_by_name_or_id [] (some "a") (some 1)).1 = CliResult.exited 65 := by
  constructor <;> decide

/-- Claim C8 (amended): when both, or neither, of the identity-by-name and
identity-by-id selectors are supplied, `get_list_by_name_or_id` rejects the
request by terminating the process with `DATAERR` before issuing any list
query; the only storage interaction preceding the rejection is opening the
connection pool. -/
theorem invalid_selector_exits_after_pool_open (lists : List TodoList)
    (name : Option String) (id : Option Int)
    (h : (name.isSome ∧ id.isSome) ∨ (name = none ∧ id = none)) :
    get_list_by_name_or_id lists name id =
      (CliResult.exited DATAERR, [StorageOp.poolOpen]) := by
  rcases h with ⟨hn, hi⟩ | ⟨hn, hi⟩
  · obtain ⟨n, hn'⟩ := Option.isSome_iff_exists.mp hn
    obtain ⟨i, hi'⟩ := Option.isSome_iff_exists.mp hi
    subst hn'
    subst hi'
    rfl
  · subst hn
    subst hi
    rfl

/-- Witness for C8 (amended) at the neither-selector input. -/
theorem invalid_selector_exits_witness :
    get_list_by_name_or_id [sampleList] none none =
      (CliResult.exited DATAERR, [StorageOp.poolOpen]) :=
  invalid_selector_exits_after_pool_open [sampleList] none none
    (Or.inr ⟨rfl, rfl⟩)

/-- Claim C9: rename updates exactly the name and the modification
timestamp, write-through: the in-memory record shows the new name at once,
all its other fields are unchanged, and every stored row keeps its
identity, order key, creation timestamp and completion data, with only the
targeted row receiving the new name and timestamp.  Stated for items and
for lists. -/
theorem rename_updates_only_name_and_timestamp (it : TodoItem)
    (dbI : List TodoItem) (l : TodoList) (dbL : List TodoList)
    (nm : String) (now : Int) :
    ((TodoItem.update_name it dbI nm now).1.name = nm ∧
      (TodoItem.update_name it dbI nm now).1.updated_at = now ∧
      (TodoItem.update_name it dbI nm now).1.id = it.id ∧
      (TodoItem.update_name it dbI nm now).1.list_id = it.list_id ∧
      (TodoItem.update_name it dbI nm now).1.is_done = it.is_done ∧
      (TodoItem.update_name it dbI nm now).1.priority = it.priority ∧
      (TodoItem.update_name it dbI nm now).1.due_date = it.due_date ∧
      (TodoItem.update_name it dbI nm now).1.ordering = it.ordering ∧
      (TodoItem.update_name it dbI nm now).1.created_at = it.created_at ∧
      (TodoItem.update_name it dbI nm now).2.length = dbI.length ∧
      ∀ x ∈ dbI, ∃ y ∈ (TodoItem.update_name it dbI nm now).2,
        y.id = x.id ∧ y.list_id = x.list_id ∧ y.ordering = x.ordering ∧
        y.created_at = x.created_at ∧ y.is_done = x.is_done ∧
        y.priority = x.priority ∧ y.due_date = x.due_date ∧
        y.name = (if x.id = it.id then nm else x.name) ∧
        y.updated_at = (if x.id = it.id then now else x.updated_at)) ∧
    ((TodoList.update_name l dbL nm now).1.name = nm ∧
      (TodoList.update_name l dbL nm now).1.updated_at = now ∧
      (TodoList.update_name l dbL nm now).1.id = l.id ∧
      (TodoList.update_name l dbL nm now).1.ordering = l.ordering ∧
      (TodoList.update_name l dbL nm now).1.created_at = l.created_at ∧
      (TodoList.update_name l dbL nm now).2.length = dbL.length ∧
      ∀ x ∈ dbL, ∃ y ∈ (TodoList.update_name l dbL nm now).2,
        y.id = x.id ∧ y.ordering = x.ordering ∧
        y.created_at = x.created_at ∧
        y.name = (if x.id = l.id then nm else x.name) ∧
        y.updated_at = (if x.id = l.id then now else x.updated_at)) := by
  constructor
  · refine ⟨rfl, rfl, rfl, rfl, rfl, rfl, rfl, rfl, rfl, List.length_map _ _, ?_⟩
    intro x hx
    refine ⟨if x.id = it.id then { x with name := nm, updated_at := now } else x,
      List.mem_map_of_mem _ hx, ?_⟩
    by_cases h : x.id = it.id <;> simp [h]
  · refine ⟨rfl, rfl, rfl, rfl, rfl, List.length_map _ _, ?_⟩
    intro x hx
    refine ⟨if x.id = l.id then { x with name := nm, updated_at := now } else x,
      List.mem_map_of_mem _ hx, ?_⟩
    by_cases h : x.id = l.id <;> simp [h]

/-- Witness for C9 at a one-row table for items: the renamed record and
its row carry the new name and timestamp and keep every other field. -/
theorem rename_witness :
    (TodoItem.update_name (sampleItem 10 1) [sampleItem 10 1] "milk" 9).1.name
        = "milk" ∧
    (TodoItem.update_name (sampleItem 10 1) [sampleItem 10 1] "milk" 9).1.ordering
        = (sampleItem 10 1).ordering ∧
    (TodoList.update_name sampleList [sampleList] "milk" 9).1.name = "milk" ∧
    (TodoList.update_name sampleList [sampleList] "milk" 9).1.ordering
        = sampleList.ordering :=
  ⟨(rename_updates_only_name_and_timestamp (sampleItem 10 1) [sampleItem 10 1]
      sampleList [sampleList] "milk" 9).1.1,
   (rename_updates_only_name_and_timestamp (sampleItem 10 1) [sampleItem 10 1]
      sampleList [sampleList] "milk" 9).1.2.2.2.2.2.2.2.1,
   (rename_updates_only_name_and_timestamp (sampleItem 10 1) [sampleItem 10 1]
      sampleList [sampleList] "milk" 9).2.1,
   (rename_updates_only_name_and_timestamp (sampleItem 10 1) [sampleItem 10 1]
      sampleList [sampleList] "milk" 9).2.2.2.2.1⟩

/-- Claim C3: create assigns the new record the order key
`max(order_key in scope) + 1`, or `1` when the scope is empty, and inserts
the record with that key — for lists (scope: the whole table) and for
items (scope: the rows of the target list). -/
theorem create_assigns_max_plus_one (dbL : List TodoList) (nl : NewTodoList)
    (dbI : List TodoItem) (ni : NewTodoItem) (now newId : Int) :
    ((dbL = [] → (TodoList.create dbL nl now newId).1.ordering = 1) ∧
      (dbL ≠ [] →
        (∃ l ∈ dbL, (TodoList.create dbL nl now newId).1.ordering = l.ordering + 1) ∧
        ∀ l ∈ dbL, l.ordering < (TodoList.create dbL nl now newId).1.ordering) ∧
      (TodoList.create dbL nl now newId).2 =
        dbL ++ [(TodoList.create dbL nl now newId).1]) ∧
    ((dbI.filter (fun x => x.list_id = ni.list_id) = [] →
        (TodoItem.create dbI ni now newId).1.ordering = 1) ∧
      (dbI.filter (fun x => x.list_id = ni.list_id) ≠ [] →
        (∃ x ∈ dbI.filter (fun x => x.list_id = ni.list_id),
          (TodoItem.create dbI ni now newId).1.ordering = x.ordering + 1) ∧
        ∀ x ∈ dbI.filter (fun x => x.list_id = ni.list_id),
          x.ordering < (TodoItem.create dbI ni now newId).1.ordering) ∧
      (TodoItem.create dbI ni now newId).2 =
        dbI ++ [(TodoItem.create dbI ni now newId).1]) := by
  constructor
  · refine ⟨?_, ?_, rfl⟩
    · intro h
      subst h
      rfl
    · intro hne
      have hmapne : dbL.map (fun l => l.ordering) ≠ [] := by
        simpa using hne
      cases hmax : maxOrd (dbL.map (fun l => l.ordering)) with
      | none => exact absurd (maxOrd_eq_none.mp hmax) hmapne
      | some m =>
        obtain ⟨hmem, hge⟩ := maxOrd_spec hmax
        obtain ⟨l0, hl0, hl0m⟩ := List.mem_map.mp hmem
        constructor
        · refine ⟨l0, hl0, ?_⟩
          show (maxOrd (dbL.map (fun l => l.ordering))).getD 0 + 1 = l0.ordering + 1
          rw [hmax, hl0m]
          rfl
        · intro l hl
          show l.ordering < (maxOrd (dbL.map (fun l => l.ordering))).getD 0 + 1
          rw [hmax]
          have := hge l.ordering (List.mem_map_of_mem _ hl)
          simpa using Int.lt_add_one_of_le this
  · refine ⟨?_, ?_, rfl⟩
    · intro h
      show (maxOrd ((dbI.filter (fun x => x.list_id = ni.list_id)).map
        (fun x => x.ordering))).getD 0 + 1 = 1
      rw [h]
      rfl
    · intro hne
      have hmapne :
          (dbI.filter (fun x => x.list_id = ni.list_id)).map
            (fun x => x.ordering) ≠ [] := by
        simpa using hne
      cases hmax : maxOrd ((dbI.filter (fun x => x.list_id = ni.list_id)).map
          (fun x => x.ordering)) with
      | none => exact absurd (maxOrd_eq_none.mp hmax) hmapne
      | some m =>
        obtain ⟨hmem, hge⟩ := maxOrd_spec hmax
        obtain ⟨x0, hx0, hx0m⟩ := List.mem_map.mp hmem
        constructor
        · refine ⟨x0, hx0, ?_⟩
          show (maxOrd ((dbI.filter (fun x => x.list_id = ni.list_id)).map
            (fun x => x.ordering))).getD 0 + 1 = x0.ordering + 1
          rw [hmax, hx0m]
          rfl
        · intro x hx
          show x.ordering < (maxOrd ((dbI.filter (fun x => x.list_id = ni.list_id)).map
            (fun x => x.ordering))).getD 0 + 1
          rw [hmax]
          have := hge x.ordering (List.mem_map_of_mem _ hx)
          simpa using Int.lt_add_one_of_le this

/-- Witness for C3 at a nonempty two-row list table and an item scope
holding a single row with order key 5. -/
theorem create_assigns_max_plus_one_witness :
    ([sampleList] ≠ ([] : List TodoList) →
      (∃ l ∈ [sampleList],
        (TodoList.create [sampleList] ⟨"work"⟩ 3 2).1.ordering = l.ordering + 1) ∧
      ∀ l ∈ [sampleList],
        l.ordering < (TodoList.create [sampleList] ⟨"work"⟩ 3 2).1.ordering) ∧
    ([sampleItem 10 5].filter (fun x => x.list_id = (1 : Int)) = [] →
      (TodoItem.create [sampleItem 10 5] ⟨1, "bread", none, none⟩ 3 2).1.ordering = 1) :=
  ⟨(create_assigns_max_plus_one [sampleList] ⟨"work"⟩ [sampleItem 10 5]
      ⟨1, "bread", none, none⟩ 3 2).1.2.1,
   (create_assigns_max_plus_one [sampleList] ⟨"work"⟩ [sampleItem 10 5]
      ⟨1, "bread", none, none⟩ 3 2).2.1⟩

/-- Claim C4: moving up the record whose order key is minimal in its scope,
and moving down the record whose order key is maximal in its scope, change
nothing — no row is updated, the in-memory record keeps its order key —
and succeed.  Stated for `TodoList::move_up` (scope: the whole table) and
`TodoItem::move_down` (scope: the rows of its list). -/
theorem boundary_moves_are_noops (self : TodoList) (db : List TodoList)
    (it : TodoItem) (dbI : List TodoItem) :
    ((∀ l ∈ db, self.ordering ≤ l.ordering) →
      TodoList.move_up self db = (self, db)) ∧
    ((∀ x ∈ dbI, x.list_id = it.list_id → x.ordering ≤ it.ordering) →
      TodoItem.move_down it dbI = (it, dbI)) := by
  constructor
  · intro h
    have hfil : db.filter (fun l => l.ordering < self.ordering) = [] := by
      refine List.filter_eq_nil_iff.mpr ?_
      intro l hl
      simp only [decide_eq_true_eq, not_lt]
      exact h l hl
    unfold TodoList.move_up TodoList.find_prev
    rw [hfil]
    rfl
  · intro h
    have hfil :
        dbI.filter (fun x => x.list_id = it.list_id ∧ it.ordering < x.ordering)
          = [] := by
      refine List.filter_eq_nil_iff.mpr ?_
      intro x hx
      simp only [decide_eq_true_eq, not_and, not_lt]
      exact h x hx
    unfold TodoItem.move_down TodoItem.find_next
    rw [hfil]
    rfl

/-- Witness for C4 at one-row tables: the single record is both minimal
and maximal in its scope, and both moves leave everything unchanged. -/
theorem boundary_moves_are_noops_witness :
    TodoList.move_up sampleList [sampleList] = (sampleList, [sampleList]) ∧
    TodoItem.move_down (sampleItem 10 1) [sampleItem 10 1] =
      (sampleItem 10 1, [sampleItem 10 1]) :=
  ⟨(boundary_moves_are_noops sampleList [sampleList] (sampleItem 10 1)
      [sampleItem 10 1]).1 (by decide),
   (boundary_moves_are_noops sampleList [sampleList] (sampleItem 10 1)
      [sampleItem 10 1]).2 (by decide)⟩

/-- Claim C1: for a record with both an immediate lower-key and an
immediate higher-key sibling in its scope, `move_up` followed by
`move_down` on the same record restores the original order-key assignment
of the three involved records — proved in the strong form that the whole
items table and the in-memory record return to exactly their original
state.  Requires the storage invariants that row ids are unique and that
order keys are unique within the scope. -/
theorem swap_roundtrip_restores_orderings (db : List TodoItem)
    (self : TodoItem) (hself : self ∈ db)
    (hids : db.Pairwise (fun x y => x.id ≠ y.id))
    (hords : (db.filter (fun x => x.list_id = self.list_id)).Pairwise
      (fun x y => x.ordering ≠ y.ordering))
    (hlower : db.filter
      (fun x => x.list_id = self.list_id ∧ x.ordering < self.ordering) ≠ [])
    (hupper : db.filter
      (fun x => x.list_id = self.list_id ∧ self.ordering < x.ordering) ≠ []) :
    TodoItem.move_down (TodoItem.move_up self db).1 (TodoItem.move_up self db).2
      = (self, db) := by
  have idInj : ∀ x ∈ db, ∀ y ∈ db, x.id = y.id → x = y := pairwise_ne_inj hids
  have ordInj : ∀ x ∈ db, x.list_id = self.list_id →
      ∀ y ∈ db, y.list_id = self.list_id → x.ordering = y.ordering → x = y := by
    intro x hx hxl y hy hyl hxy
    refine pairwise_ne_inj hords x ?_ y ?_ hxy <;>
      simp only [List.mem_filter, decide_eq_true_eq]
    · exact ⟨hx, hxl⟩
    · exact ⟨hy, hyl⟩
  -- resolve the first query
  cases hfp : TodoItem.find_prev db self.list_id self.ordering with
  | none =>
    exfalso
    apply hlower
    unfold TodoItem.find_prev at hfp
    exact argmaxOrd_eq_none.mp (Option.map_eq_none'.mp hfp)
  | some pr =>
    obtain ⟨pid, pord⟩ := pr
    unfold TodoItem.find_prev at hfp
    obtain ⟨p, hargmax, hpeq⟩ := Option.map_eq_some'.mp hfp
    obtain ⟨hpid_eq, hpord_eq⟩ := Prod.mk.injEq .. |>.mp hpeq
    subst hpid_eq
    subst hpord_eq
    obtain ⟨hpmemF, hpmax⟩ := argmaxOrd_spec hargmax
    have hpdb : p ∈ db := (List.mem_filter.mp hpmemF).1
    have hpcond := of_decide_eq_true (List.mem_filter.mp hpmemF).2
    obtain ⟨hplid, hplt⟩ := hpcond
    have hpid : p.id ≠ self.id := by
      intro h
      have : p = self := idInj p hpdb self hself h
      rw [this] at hplt
      exact lt_irrefl _ hplt
    -- the state after move_up
    have hmu : TodoItem.move_up self db =
        ({ self with ordering := p.ordering },
          TodoItem.set_ordering (TodoItem.set_ordering db p.id self.ordering)
            self.id p.ordering) := by
      unfold TodoItem.move_up
      unfold TodoItem.find_prev
      rw [Option.map_eq_some'.mpr ⟨p, hargmax, rfl⟩]
    rw [hmu]
    -- the two updates compose into one row transformation
    have hdb2 : TodoItem.set_ordering (TodoItem.set_ordering db p.id self.ordering)
        self.id p.ordering =
        db.map (fun x =>
          if x.id = self.id then { x with ordering := p.ordering }
          else if x.id = p.id then { x with ordering := self.ordering }
          else x) := by
      unfold TodoItem.set_ordering
      rw [List.map_map]
      refine List.map_congr_left ?_
      intro x _
      by_cases h1 : x.id = p.id
      · have hxs : x.id ≠ self.id := by rw [h1]; exact hpid
        simp only [Function.comp_apply, if_pos h1, if_neg hxs]
      · by_cases h2 : x.id = self.id
        · simp only [Function.comp_apply, if_neg h1, if_pos h2]
        · simp only [Function.comp_apply, if_neg h1, if_neg h2]
    rw [hdb2]
    -- resolve the second query: it finds exactly the former neighbor
    have hpimg : ({ p with ordering := self.ordering } : TodoItem) ∈
        db.map (fun x =>
          if x.id = self.id then { x with ordering := p.ordering }
          else if x.id = p.id then { x with ordering := self.ordering }
          else x) := by
      refine List.mem_map.mpr ⟨p, hpdb, ?_⟩
      rw [if_neg hpid, if_pos rfl]
    have hfn : TodoItem.find_next
        (db.map (fun x =>
          if x.id = self.id then { x with ordering := p.ordering }
          else if x.id = p.id then { x with ordering := self.ordering }
          else x)) self.list_id p.ordering = some (p.id, self.ordering) := by
      cases hq : argminOrd ((db.map (fun x =>
          if x.id = self.id then { x with ordering := p.ordering }
          else if x.id = p.id then { x with ordering := self.ordering }
          else x)).filter
            (fun x => x.list_id = self.list_id ∧ p.ordering < x.ordering)) with
      | none =>
        exfalso
        have hfilne := argminOrd_eq_none.mp hq
        rw [List.filter_eq_nil_iff] at hfilne
        refine hfilne _ (hpimg) ?_
        simp only [decide_eq_true_eq]
        exact ⟨hplid, hplt⟩
      | some q =>
        obtain ⟨hqmemF, hqmin⟩ := argminOrd_spec hq
        have hqmem := (List.mem_filter.mp hqmemF).1
        have hqcond := of_decide_eq_true (List.mem_filter.mp hqmemF).2
        obtain ⟨hqlid, hqgt⟩ := hqcond
        obtain ⟨z, hzdb, hzq⟩ := List.mem_map.mp hqmem
        have hqle : q.ordering ≤ self.ordering := by
          have := hqmin _ (List.mem_filter.mpr ⟨hpimg, by
            simp only [decide_eq_true_eq]
            exact ⟨hplid, hplt⟩⟩)
          exact this
        have hqp : q = { p with ordering := self.ordering } := by
          by_cases hz1 : z.id = self.id
          · exfalso
            rw [if_pos hz1] at hzq
            have : q.ordering = p.ordering := by rw [← hzq]
            rw [this] at hqgt
            exact lt_irrefl _ hqgt
          · by_cases hz2 : z.id = p.id
            · have : z = p := idInj z hzdb p hpdb hz2
              rw [if_neg hz1, if_pos hz2, this] at hzq
              exact hzq.symm
            · exfalso
              rw [if_neg hz1, if_neg hz2] at hzq
              have hqdb : q ∈ db := hzq ▸ hzdb
              rcases lt_or_eq_of_le hqle with hlt | heq
              · have hzF : q ∈ db.filter
                    (fun x => x.list_id = self.list_id ∧
                      x.ordering < self.ordering) := by
                  refine List.mem_filter.mpr ⟨hqdb, ?_⟩
                  simp only [decide_eq_true_eq]
                  exact ⟨hqlid, hlt⟩
                have := hpmax q hzF
                exact absurd hqgt (not_lt.mpr this)
              · have hq_self : q = self :=
                  ordInj q hqdb hqlid self hself rfl heq
                exact hz1 (by rw [hzq, hq_self])
        unfold TodoItem.find_next
        rw [Option.map_eq_some'.mpr ⟨q, hq, ?_⟩]
        rw [hqp]
    -- unfold the final move and collapse the four updates
    unfold TodoItem.move_down
    rw [show ({ self with ordering := p.ordering } : TodoItem).list_id
        = self.list_id from rfl] at hfn ⊢
    rw [hfn]
    refine Prod.ext ?_ ?_
    · rfl
    · show TodoItem.set_ordering (TodoItem.set_ordering _ p.id
        ({ self with ordering := p.ordering } : TodoItem).ordering)
        ({ self with ordering := p.ordering } : TodoItem).id self.ordering = db
      unfold TodoItem.set_ordering
      rw [List.map_map, List.map_map]
      have : ∀ x ∈ db, ((fun y : TodoItem =>
          if y.id = ({ self with ordering := p.ordering } : TodoItem).id
          then { y with ordering := self.ordering } else y) ∘
        (fun y : TodoItem => if y.id = p.id
          then { y with ordering :=
            ({ self with ordering := p.ordering } : TodoItem).ordering }
          else y) ∘
        (fun y : TodoItem =>
          if y.id = self.id then { y with ordering := p.ordering }
          else if y.id = p.id then { y with ordering := self.ordering }
          else y)) x = x := by
        intro x hx
        by_cases h1 : x.id = self.id
        · have hxp : x.id ≠ p.id := by rw [h1]; exact fun h => hpid h.symm
          have hx_self : x = self := idInj x hx self hself h1
          simp only [Function.comp_apply, if_pos h1, if_neg hxp, if_pos h1]
          rw [hx_self]
        · by_cases h2 : x.id = p.id
          · have hx_p : x = p := idInj x hx p hpdb h2
            simp only [Function.comp_apply, if_neg h1, if_pos h2, if_neg hpid,
              if_pos h2, if_neg hpid]
            rw [hx_p]
          · simp only [Function.comp_apply, if_neg h1, if_neg h2, if_neg h2,
              if_neg h1]
      exact (List.map_congr_left this).trans (List.map_id' db)

/-- A three-row scope with order keys 1, 2, 3 for the C1 witness. -/
def swapDb : List TodoItem :=
  [sampleItem 20 1, sampleItem 21 2, sampleItem 22 3]

/-- Witness for C1: moving the middle record of a three-record scope up and
then down restores the table and the record. -/
theorem swap_roundtrip_witness :
    TodoItem.move_down
      (TodoItem.move_up (sampleItem 21 2) swapDb).1
      (TodoItem.move_up (sampleItem 21 2) swapDb).2
      = (sampleItem 21 2, swapDb) :=
  swap_roundtrip_restores_orderings swapDb (sampleItem 21 2)
    (by decide) (by decide) (by decide) (by decide) (by decide)

instance : IsRefl TodoItem itemLe := ⟨fun a => le_refl a.ordering⟩

/-- In a fresh snapshot with unique order keys per scope, order keys grow
strictly along the sorted item sequence. -/
theorem get_ordering_lt_of_lt {db : List TodoItem} {lid : Int}
    (hdist : (db.filter (fun x => x.list_id = lid)).Pairwise
      (fun x y => x.ordering ≠ y.ordering))
    {i j : Nat} (hi : i < (TodoItem.get_by_list_id db lid).length)
    (hj : j < (TodoItem.get_by_list_id db lid).length) (hij : i < j) :
    ((TodoItem.get_by_list_id db lid).get ⟨i, hi⟩).ordering <
      ((TodoItem.get_by_list_id db lid).get ⟨j, hj⟩).ordering := by
  have hle : itemLe ((TodoItem.get_by_list_id db lid).get ⟨i, hi⟩)
      ((TodoItem.get_by_list_id db lid).get ⟨j, hj⟩) :=
    (sorted_get_by_list_id db lid).rel_get_of_lt (Fin.mk_lt_mk.mpr hij)
  have hne : (TodoItem.get_by_list_id db lid).Pairwise
      (fun x y => x.ordering ≠ y.ordering) :=
    ((perm_get_by_list_id db lid).pairwise_iff
      (fun hxy h => hxy h.symm)).mpr hdist
  exact lt_of_le_of_ne hle
    (List.pairwise_iff_get.mp hne ⟨i, hi⟩ ⟨j, hj⟩ (Fin.mk_lt_mk.mpr hij))

/-- The move-up neighbor query returns nothing exactly when the record
sits at index 0 of the fresh snapshot of its scope. -/
theorem find_prev_eq_none_iff {db : List TodoItem} {lid : Int} {j : Nat}
    {it : TodoItem}
    (hdist : (db.filter (fun x => x.list_id = lid)).Pairwise
      (fun x y => x.ordering ≠ y.ordering))
    (hj : j < (TodoItem.get_by_list_id db lid).length)
    (hit : (TodoItem.get_by_list_id db lid).get ⟨j, hj⟩ = it) :
    (TodoItem.find_prev db lid it.ordering = none ↔ j = 0) := by
  unfold TodoItem.find_prev
  rw [Option.map_eq_none', argmaxOrd_eq_none, List.filter_eq_nil_iff]
  constructor
  · intro h
    by_contra hj0
    have hj1 : j - 1 < (TodoItem.get_by_list_id db lid).length := by omega
    have hemem : (TodoItem.get_by_list_id db lid).get ⟨j - 1, hj1⟩ ∈
        TodoItem.get_by_list_id db lid := List.get_mem _ _ _
    obtain ⟨hedb, helid⟩ := mem_get_by_list_id.mp hemem
    have hlt : ((TodoItem.get_by_list_id db lid).get ⟨j - 1, hj1⟩).ordering <
        it.ordering := by
      rw [← hit]
      exact get_ordering_lt_of_lt hdist hj1 hj (by omega)
    refine h _ hedb ?_
    simp only [decide_eq_true_eq]
    exact ⟨helid, hlt⟩
  · intro h0
    subst h0
    intro x hxdb hxcond
    obtain ⟨hxlid, hxlt⟩ := of_decide_eq_true hxcond
    obtain ⟨i, hig⟩ :=
      List.mem_iff_get.mp (mem_get_by_list_id.mpr ⟨hxdb, hxlid⟩)
    have hle : itemLe ((TodoItem.get_by_list_id db lid).get ⟨0, hj⟩)
        ((TodoItem.get_by_list_id db lid).get i) :=
      (sorted_get_by_list_id db lid).rel_get_of_le
        (Fin.le_def.mpr (Nat.zero_le _))
    rw [hig, hit] at hle
    exact absurd hxlt (not_lt.mpr hle)

/-- The move-down neighbor query returns nothing exactly when the record
sits at the last index of the fresh snapshot of its scope. -/
theorem find_next_eq_none_iff {db : List TodoItem} {lid : Int} {j : Nat}
    {it : TodoItem}
    (hdist : (db.filter (fun x => x.list_id = lid)).Pairwise
      (fun x y => x.ordering ≠ y.ordering))
    (hj : j < (TodoItem.get_by_list_id db lid).length)
    (hit : (TodoItem.get_by_list_id db lid).get ⟨j, hj⟩ = it) :
    (TodoItem.find_next db lid it.ordering = none ↔
      j + 1 = (TodoItem.get_by_list_id db lid).length) := by
  unfold TodoItem.find_next
  rw [Option.map_eq_none', argminOrd_eq_none, List.filter_eq_nil_iff]
  constructor
  · intro h
    by_contra hj1
    have hj2 : j + 1 < (TodoItem.get_by_list_id db lid).length := by omega
    have hemem : (TodoItem.get_by_list_id db lid).get ⟨j + 1, hj2⟩ ∈
        TodoItem.get_by_list_id db lid := List.get_mem _ _ _
    obtain ⟨hedb, helid⟩ := mem_get_by_list_id.mp hemem
    have hlt : it.ordering <
        ((TodoItem.get_by_list_id db lid).get ⟨j + 1, hj2⟩).ordering := by
      rw [← hit]
      exact get_ordering_lt_of_lt hdist hj hj2 (by omega)
    refine h _ hedb ?_
    simp only [decide_eq_true_eq]
    exact ⟨helid, hlt⟩
  · intro h0
    intro x hxdb hxcond
    obtain ⟨hxlid, hxlt⟩ := of_decide_eq_true hxcond
    obtain ⟨i, hig⟩ :=
      List.mem_iff_get.mp (mem_get_by_list_id.mpr ⟨hxdb, hxlid⟩)
    have hile : i ≤ (⟨j, hj⟩ : Fin (TodoItem.get_by_list_id db lid).length) := by
      refine Fin.le_def.mpr ?_
      show i.val ≤ j
      have hilt := i.isLt
      omega
    have hle : itemLe ((TodoItem.get_by_list_id db lid).get i)
        ((TodoItem.get_by_list_id db lid).get ⟨j, hj⟩) :=
      (sorted_get_by_list_id db lid).rel_get_of_le hile
    rw [hig, hit] at hle
    exact absurd hxlt (not_lt.mpr hle)

/-- One ordering update keeps the membership count of every scope. -/
theorem length_filter_set_ordering (db : List TodoItem) (i v lid : Int) :
    ((TodoItem.set_ordering db i v).filter (fun x => x.list_id = lid)).length =
      (db.filter (fun x => x.list_id = lid)).length := by
  unfold TodoItem.set_ordering
  refine length_filter_map_eq ?_ db
  intro x
  by_cases h : x.id = i <;> simp [h]

/-- `move_up` keeps the membership count of every scope. -/
theorem length_filter_move_up (it : TodoItem) (db : List TodoItem) (lid : Int) :
    ((TodoItem.move_up it db).2.filter (fun x => x.list_id = lid)).length =
      (db.filter (fun x => x.list_id = lid)).length := by
  unfold TodoItem.move_up
  cases hfp : TodoItem.find_prev db it.list_id it.ordering with
  | none => rfl
  | some pr =>
    obtain ⟨pid, pord⟩ := pr
    show ((TodoItem.set_ordering (TodoItem.set_ordering db pid it.ordering)
      it.id pord).filter (fun x => x.list_id = lid)).length = _
    rw [length_filter_set_ordering, length_filter_set_ordering]

/-- `move_down` keeps the membership count of every scope. -/
theorem length_filter_move_down (it : TodoItem) (db : List TodoItem) (lid : Int) :
    ((TodoItem.move_down it db).2.filter (fun x => x.list_id = lid)).length =
      (db.filter (fun x => x.list_id = lid)).length := by
  unfold TodoItem.move_down
  cases hfn : TodoItem.find_next db it.list_id it.ordering with
  | none => rfl
  | some pr =>
    obtain ⟨nid, nord⟩ := pr
    show ((TodoItem.set_ordering (TodoItem.set_ordering db nid it.ordering)
      it.id nord).filter (fun x => x.list_id = lid)).length = _
    rw [length_filter_set_ordering, length_filter_set_ordering]

/-- Claim C6: after move-up of the selected element the cursor decrements
by one; after move-down it increments by one, and the collection length is
unchanged; when the underlying move was a no-op (no sibling with a lower,
resp. higher, order key exists in the scope, which is what the neighbor
query returning nothing means), the cursor is unchanged.  Requires a fresh
snapshot and unique order keys per scope. -/
theorem move_repairs_cursor (ui : UIList) (db : List TodoItem) (j : Nat)
    (hfresh : ui.items = TodoItem.get_by_list_id db ui.list.id)
    (hdist : (db.filter (fun x => x.list_id = ui.list.id)).Pairwise
      (fun x y => x.ordering ≠ y.ordering))
    (hsel : ui.item_state = some j) (hj : j < ui.items.length) :
    (∃ ui' db', ItemsComponent.move_selected_item_up ui db = some (ui', db') ∧
      ui'.items.length = ui.items.length ∧
      ui'.item_state = some (if TodoItem.find_prev db ui.list.id
          ((ui.items.get ⟨j, hj⟩).ordering) = none then j else j - 1)) ∧
    (∃ ui' db', ItemsComponent.move_selected_item_down ui db = some (ui', db') ∧
      ui'.items.length = ui.items.length ∧
      ui'.item_state = some (if TodoItem.find_next db ui.list.id
          ((ui.items.get ⟨j, hj⟩).ordering) = none then j else j + 1)) := by
  have hj' : j < (TodoItem.get_by_list_id db ui.list.id).length := by
    rw [← hfresh]; exact hj
  have hit' : (TodoItem.get_by_list_id db ui.list.id).get ⟨j, hj'⟩ =
      ui.items.get ⟨j, hj⟩ := (List.get_of_eq hfresh ⟨j, hj⟩).symm
  have hget : ui.items.get? j = some (ui.items.get ⟨j, hj⟩) :=
    List.get?_eq_get hj
  constructor
  · -- move up
    unfold ItemsComponent.move_selected_item_up
    rw [hsel]
    dsimp only
    rw [hget]
    dsimp only
    cases hmu2 : TodoItem.move_up (ui.items.get ⟨j, hj⟩) db with
    | mk mv mdb =>
      have hlen2 : (TodoItem.get_by_list_id mdb ui.list.id).length =
          ui.items.length := by
        have h1 := length_filter_move_up (ui.items.get ⟨j, hj⟩) db ui.list.id
        rw [hmu2] at h1
        rw [length_get_by_list_id, h1, ← length_get_by_list_id, ← hfresh]
      refine ⟨_, _, rfl, ?_, ?_⟩
      · show (if 0 < j then
            { ui.update_items mdb with item_state := some (j - 1) }
          else ui.update_items mdb).items.length = ui.items.length
        split <;> exact hlen2
      · show (if 0 < j then
            { ui.update_items mdb with item_state := some (j - 1) }
          else ui.update_items mdb).item_state = _
        by_cases hfp : TodoItem.find_prev db ui.list.id
            ((ui.items.get ⟨j, hj⟩).ordering) = none
        · have hj0 : j = 0 := (find_prev_eq_none_iff hdist hj' hit').mp hfp
          subst hj0
          rw [if_neg (lt_irrefl 0), if_pos hfp]
          show ui.item_state = some 0
          exact hsel
        · have hjne : j ≠ 0 :=
            fun h0 => hfp ((find_prev_eq_none_iff hdist hj' hit').mpr h0)
          rw [if_pos (Nat.pos_of_ne_zero hjne), if_neg hfp]
  · -- move down
    unfold ItemsComponent.move_selected_item_down
    rw [hsel]
    dsimp only
    rw [hget]
    dsimp only
    cases hmd2 : TodoItem.move_down (ui.items.get ⟨j, hj⟩) db with
    | mk mv mdb =>
      have hlen2 : (TodoItem.get_by_list_id mdb ui.list.id).length =
          ui.items.length := by
        have h1 := length_filter_move_down (ui.items.get ⟨j, hj⟩) db ui.list.id
        rw [hmd2] at h1
        rw [length_get_by_list_id, h1, ← length_get_by_list_id, ← hfresh]
      have hguard : (ui.update_items mdb).items.length = ui.items.length :=
        hlen2
      refine ⟨_, _, rfl, ?_, ?_⟩
      · show (if j + 1 < (ui.update_items mdb).items.length then
            { ui.update_items mdb with item_state := some (j + 1) }
          else ui.update_items mdb).items.length = ui.items.length
        split <;> exact hlen2
      · show (if j + 1 < (ui.update_items mdb).items.length then
            { ui.update_items mdb with item_state := some (j + 1) }
          else ui.update_items mdb).item_state = _
        rw [hguard]
        by_cases hfn : TodoItem.find_next db ui.list.id
            ((ui.items.get ⟨j, hj⟩).ordering) = none
        · have hj1 : j + 1 = (TodoItem.get_by_list_id db ui.list.id).length :=
            (find_next_eq_none_iff hdist hj' hit').mp hfn
          rw [← hfresh] at hj1
          rw [if_neg (by omega), if_pos hfn]
          show ui.item_state = some j
          exact hsel
        · have hjne : j + 1 ≠ (TodoItem.get_by_list_id db ui.list.id).length :=
            fun h0 => hfn ((find_next_eq_none_iff hdist hj' hit').mpr h0)
          rw [← hfresh] at hjne
          rw [if_pos (by omega), if_neg hfn]

/-- A fresh cached view of the three-row scope, selecting index 1. -/
def sampleUIMove : UIList :=
  { list := sampleList, item_state := some 1,
    items := TodoItem.get_by_list_id swapDb 1 }

/-- Witness for C6: moving the middle of three elements, up and down. -/
theorem move_repairs_cursor_witness :
    (∃ ui' db',
      ItemsComponent.move_selected_item_up sampleUIMove swapDb =
        some (ui', db') ∧
      ui'.items.length = sampleUIMove.items.length ∧
      ui'.item_state = some (if TodoItem.find_prev swapDb sampleUIMove.list.id
          ((sampleUIMove.items.get ⟨1, by decide⟩).ordering) = none
        then 1 else 1 - 1)) ∧
    (∃ ui' db',
      ItemsComponent.move_selected_item_down sampleUIMove swapDb =
        some (ui', db') ∧
      ui'.items.length = sampleUIMove.items.length ∧
      ui'.item_state = some (if TodoItem.find_next swapDb sampleUIMove.list.id
          ((sampleUIMove.items.get ⟨1, by decide⟩).ordering) = none
        then 1 else 1 + 1)) :=
  move_repairs_cursor sampleUIMove swapDb 1 rfl (by decide) rfl (by decide)

/-!
## The element cursor validity invariant (claim C2)

The operations below are exactly the element-scoped intents the main
screen dispatches to the items component (`src/app/events.rs`, main-screen
arm): cursor navigation, toggle, create, modify, delete, move up and move
down, each acting on the selected list and the items table.
-/

/-- An element-scoped operation of the items component. -/
inductive ItemOp where
  | selNext
  | selPrev
  | selFirst
  | selLast
  | deselect
  | toggle (now : Int)
  | createNew (name : String) (now newId : Int)
  | updateSel (name : String) (now : Int)
  | deleteSel
  | moveUp
  | moveDown
deriving Repr, DecidableEq

/-- One step of the items component on the cached view and the store;
`none` models an out-of-bounds index panic. -/
def stepItemOp : ItemOp → UIList × List TodoItem →
    Option (UIList × List TodoItem)
  | ItemOp.selNext, (ui, db) => some (ItemsComponent.select_next_item ui, db)
  | ItemOp.selPrev, (ui, db) =>
    some (ItemsComponent.select_previous_item ui, db)
  | ItemOp.selFirst, (ui, db) => some (ItemsComponent.select_first_item ui, db)
  | ItemOp.selLast, (ui, db) => some (ItemsComponent.select_last_item ui, db)
  | ItemOp.deselect, (ui, db) =>
    some (ItemsComponent.remove_item_selection ui, db)
  | ItemOp.toggle now, (ui, db) => ItemsComponent.toggle_item_done ui db now
  | ItemOp.createNew name now newId, (ui, db) =>
    some (ItemsComponent.create_item ui name db now newId)
  | ItemOp.updateSel name now, (ui, db) =>
    ItemsComponent.update_item ui name db now
  | ItemOp.deleteSel, (ui, db) => ItemsComponent.delete_selected_item ui db
  | ItemOp.moveUp, (ui, db) => ItemsComponent.move_selected_item_up ui db
  | ItemOp.moveDown, (ui, db) => ItemsComponent.move_selected_item_down ui db

/-- Run a sequence of operations, stopping at a panic. -/
def runItemOps : List ItemOp → UIList × List TodoItem →
    Option (UIList × List TodoItem)
  | [], s => some s
  | op :: ops, s =>
    match stepItemOp op s with
    | none => none
    | some s' => runItemOps ops s'

/-- The element cursor is `None` or a valid index of the cached items. -/
def cursorValid (ui : UIList) : Prop :=
  match ui.item_state with
  | none => True
  | some j => j < ui.items.length

/-- The cached item count matches the store for this list scope. -/
def lengthSync (ui : UIList) (db : List TodoItem) : Prop :=
  ui.items.length = (db.filter (fun x => x.list_id = ui.list.id)).length

/-- The reachable-state invariant: the cache agrees with the store in
size and the cursor is valid. -/
def StateInv (s : UIList × List TodoItem) : Prop :=
  lengthSync s.1 s.2 ∧ cursorValid s.1

theorem cursorValid_iff (ui : UIList) :
    cursorValid ui ↔ ∀ j, ui.item_state = some j → j < ui.items.length := by
  cases h : ui.item_state <;> simp [cursorValid, h]

theorem select_next_item_spec (ui : UIList) (h : cursorValid ui) :
    (ItemsComponent.select_next_item ui).list = ui.list ∧
    (ItemsComponent.select_next_item ui).items = ui.items ∧
    cursorValid (ItemsComponent.select_next_item ui) := by
  obtain ⟨l, st, its⟩ := ui
  unfold ItemsComponent.select_next_item
  by_cases hE : its.isEmpty
  · rw [if_pos hE]
    exact ⟨rfl, rfl, h⟩
  · have hpos : 0 < its.length :=
      List.length_pos.mpr (by simpa [List.isEmpty_iff] using hE)
    rw [if_neg hE]
    cases st with
    | none =>
      exact ⟨rfl, rfl, hpos⟩
    | some j =>
      refine ⟨rfl, rfl, ?_⟩
      show min (j + 1) (its.length - 1) < its.length
      omega

theorem select_previous_item_spec (ui : UIList) (h : cursorValid ui) :
    (ItemsComponent.select_previous_item ui).list = ui.list ∧
    (ItemsComponent.select_previous_item ui).items = ui.items ∧
    cursorValid (ItemsComponent.select_previous_item ui) := by
  obtain ⟨l, st, its⟩ := ui
  unfold ItemsComponent.select_previous_item
  by_cases hE : its.isEmpty
  · rw [if_pos hE]
    exact ⟨rfl, rfl, h⟩
  · have hpos : 0 < its.length :=
      List.length_pos.mpr (by simpa [List.isEmpty_iff] using hE)
    rw [if_neg hE]
    cases st with
    | none =>
      refine ⟨rfl, rfl, ?_⟩
      show its.length - 1 < its.length
      omega
    | some j =>
      refine ⟨rfl, rfl, ?_⟩
      show j - 1 < its.length
      have hj : j < its.length := h
      omega

theorem select_first_item_spec (ui : UIList) (h : cursorValid ui) :
    (ItemsComponent.select_first_item ui).list = ui.list ∧
    (ItemsComponent.select_first_item ui).items = ui.items ∧
    cursorValid (ItemsComponent.select_first_item ui) := by
  obtain ⟨l, st, its⟩ := ui
  unfold ItemsComponent.select_first_item
  by_cases hE : its.isEmpty
  · rw [if_pos hE]
    exact ⟨rfl, rfl, h⟩
  · have hpos : 0 < its.length :=
      List.length_pos.mpr (by simpa [List.isEmpty_iff] using hE)
    rw [if_neg hE]
    exact ⟨rfl, rfl, hpos⟩

theorem select_last_item_spec (ui : UIList) (h : cursorValid ui) :
    (ItemsComponent.select_last_item ui).list = ui.list ∧
    (ItemsComponent.select_last_item ui).items = ui.items ∧
    cursorValid (ItemsComponent.select_last_item ui) := by
  obtain ⟨l, st, its⟩ := ui
  unfold ItemsComponent.select_last_item
  by_cases hE : its.isEmpty
  · rw [if_pos hE]
    exact ⟨rfl, rfl, h⟩
  · have hpos : 0 < its.length :=
      List.length_pos.mpr (by simpa [List.isEmpty_iff] using hE)
    rw [if_neg hE]
    refine ⟨rfl, rfl, ?_⟩
    show its.length - 1 < its.length
    omega

/-- Toggling completion keeps the membership count of every scope. -/
theorem length_filter_toggle_done (self : TodoItem) (db : List TodoItem)
    (now lid : Int) :
    (((TodoItem.toggle_done self db now).2).filter
      (fun x => x.list_id = lid)).length =
      (db.filter (fun x => x.list_id = lid)).length := by
  unfold TodoItem.toggle_done
  refine length_filter_map_eq ?_ db
  intro x
  by_cases h : x.id = self.id <;> simp [h]

/-- Renaming keeps the membership count of every scope. -/
theorem length_filter_update_name (self : TodoItem) (db : List TodoItem)
    (nm : String) (now lid : Int) :
    (((TodoItem.update_name self db nm now).2).filter
      (fun x => x.list_id = lid)).length =
      (db.filter (fun x => x.list_id = lid)).length := by
  unfold TodoItem.update_name
  refine length_filter_map_eq ?_ db
  intro x
  by_cases h : x.id = self.id <;> simp [h]

/-- Creating inserts exactly one row into its scope. -/
theorem length_filter_create (db : List TodoItem) (ni : NewTodoItem)
    (now newId lid : Int) (hl : ni.list_id = lid) :
    (((TodoItem.create db ni now newId).2).filter
      (fun x => x.list_id = lid)).length =
      (db.filter (fun x => x.list_id = lid)).length + 1 := by
  unfold TodoItem.create
  dsimp only
  rw [List.filter_append, List.length_append]
  congr 1
  simp [hl]

/-- Every element-scoped operation steps without a panic from an invariant
state and re-establishes the invariant. -/
theorem stepItemOp_preserves (op : ItemOp) (s : UIList × List TodoItem)
    (h : StateInv s) : ∃ s', stepItemOp op s = some s' ∧ StateInv s' := by
  obtain ⟨ui, db⟩ := s
  obtain ⟨l, st, its⟩ := ui
  cases op with
  | selNext =>
    obtain ⟨h1, h2, h3⟩ := select_next_item_spec ⟨l, st, its⟩ h.2
    refine ⟨_, rfl, ?_, h3⟩
    unfold lengthSync
    rw [h1, h2]
    exact h.1
  | selPrev =>
    obtain ⟨h1, h2, h3⟩ := select_previous_item_spec ⟨l, st, its⟩ h.2
    refine ⟨_, rfl, ?_, h3⟩
    unfold lengthSync
    rw [h1, h2]
    exact h.1
  | selFirst =>
    obtain ⟨h1, h2, h3⟩ := select_first_item_spec ⟨l, st, its⟩ h.2
    refine ⟨_, rfl, ?_, h3⟩
    unfold lengthSync
    rw [h1, h2]
    exact h.1
  | selLast =>
    obtain ⟨h1, h2, h3⟩ := select_last_item_spec ⟨l, st, its⟩ h.2
    refine ⟨_, rfl, ?_, h3⟩
    unfold lengthSync
    rw [h1, h2]
    exact h.1
  | deselect =>
    refine ⟨_, rfl, ?_, trivial⟩
    exact h.1
  | toggle now =>
    cases st with
    | none => exact ⟨_, rfl, h⟩
    | some j =>
      have hj : j < its.length := h.2
      have hget : its.get? j = some (its.get ⟨j, hj⟩) := List.get?_eq_get hj
      have hsync : its.length =
          (db.filter (fun x => x.list_id = l.id)).length := h.1
      unfold stepItemOp ItemsComponent.toggle_item_done
      dsimp only
      rw [hget]
      dsimp only
      refine ⟨_, rfl, ?_, ?_⟩
      · show (its.set j _).length =
          (((TodoItem.toggle_done (its.get ⟨j, hj⟩) db now).2).filter
            (fun x => x.list_id = l.id)).length
        rw [List.length_set, length_filter_toggle_done]
        exact hsync
      · show j < (its.set j _).length
        rw [List.length_set]
        exact hj
  | createNew name now newId =>
    refine ⟨_, rfl, ?_, ?_⟩
    · show (TodoItem.get_by_list_id
          (TodoItem.create db ⟨l.id, name, none, none⟩ now newId).2 l.id).length =
        (((TodoItem.create db ⟨l.id, name, none, none⟩ now newId).2).filter
          (fun x => x.list_id = l.id)).length
      exact length_get_by_list_id _ _
    · cases st with
      | none => trivial
      | some j =>
        have hj : j < its.length := h.2
        have hsync : its.length =
            (db.filter (fun x => x.list_id = l.id)).length := h.1
        show j < (TodoItem.get_by_list_id
          (TodoItem.create db ⟨l.id, name, none, none⟩ now newId).2 l.id).length
        rw [length_get_by_list_id,
          length_filter_create db ⟨l.id, name, none, none⟩ now newId l.id rfl]
        omega
  | updateSel name now =>
    cases st with
    | none => exact ⟨_, rfl, h⟩
    | some j =>
      have hj : j < its.length := h.2
      have hget : its.get? j = some (its.get ⟨j, hj⟩) := List.get?_eq_get hj
      have hsync : its.length =
          (db.filter (fun x => x.list_id = l.id)).length := h.1
      unfold stepItemOp ItemsComponent.update_item
      dsimp only
      rw [hget]
      dsimp only
      refine ⟨_, rfl, ?_, ?_⟩
      · show (TodoItem.get_by_list_id
            (TodoItem.update_name (its.get ⟨j, hj⟩) db name now).2 l.id).length =
          (((TodoItem.update_name (its.get ⟨j, hj⟩) db name now).2).filter
            (fun x => x.list_id = l.id)).length
        exact length_get_by_list_id _ _
      · show j < (TodoItem.get_by_list_id
          (TodoItem.update_name (its.get ⟨j, hj⟩) db name now).2 l.id).length
        rw [length_get_by_list_id, length_filter_update_name]
        omega
  | deleteSel =>
    cases st with
    | none => exact ⟨_, rfl, h⟩
    | some j =>
      have hj : j < its.length := h.2
      have hget : its.get? j = some (its.get ⟨j, hj⟩) := List.get?_eq_get hj
      unfold stepItemOp ItemsComponent.delete_selected_item
      dsimp only
      rw [hget]
      dsimp only
      refine ⟨_, rfl, ?_, ?_⟩
      · unfold lengthSync
        split
        · exact length_get_by_list_id _ _
        · split
          · exact length_get_by_list_id _ _
          · exact length_get_by_list_id _ _
      · split
        · trivial
        · split
          · rename_i hne hlen
            show (TodoItem.get_by_list_id
              (TodoItem.delete (its.get ⟨j, hj⟩) db) l.id).length - 1 <
              (TodoItem.get_by_list_id
                (TodoItem.delete (its.get ⟨j, hj⟩) db) l.id).length
            have hpos : 0 < (TodoItem.get_by_list_id
                (TodoItem.delete (its.get ⟨j, hj⟩) db) l.id).length :=
              List.length_pos.mpr (by simpa [List.isEmpty_iff] using hne)
            omega
          · rename_i hne hlen
            show j < (TodoItem.get_by_list_id
              (TodoItem.delete (its.get ⟨j, hj⟩) db) l.id).length
            have hlen2 : ¬ ((TodoItem.get_by_list_id
              (TodoItem.delete (its.get ⟨j, hj⟩) db) l.id).length ≤ j) := hlen
            omega
  | moveUp =>
    cases st with
    | none => exact ⟨_, rfl, h⟩
    | some j =>
      have hj : j < its.length := h.2
      have hget : its.get? j = some (its.get ⟨j, hj⟩) := List.get?_eq_get hj
      have hsync : its.length =
          (db.filter (fun x => x.list_id = l.id)).length := h.1
      unfold stepItemOp ItemsComponent.move_selected_item_up
      dsimp only
      rw [hget]
      dsimp only
      cases hmu2 : TodoItem.move_up (its.get ⟨j, hj⟩) db with
      | mk mv mdb =>
        have h0 := length_filter_move_up (its.get ⟨j, hj⟩) db l.id
        rw [hmu2] at h0
        have h1 : (mdb.filter (fun x => x.list_id = l.id)).length =
            (db.filter (fun x => x.list_id = l.id)).length := h0
        refine ⟨_, rfl, ?_, ?_⟩
        · unfold lengthSync
          split <;> exact length_get_by_list_id _ _
        · split
          · show j - 1 < (TodoItem.get_by_list_id mdb l.id).length
            rw [length_get_by_list_id]
            omega
          · show j < (TodoItem.get_by_list_id mdb l.id).length
            rw [length_get_by_list_id]
            omega
  | moveDown =>
    cases st with
    | none => exact ⟨_, rfl, h⟩
    | some j =>
      have hj : j < its.length := h.2
      have hget : its.get? j = some (its.get ⟨j, hj⟩) := List.get?_eq_get hj
      have hsync : its.length =
          (db.filter (fun x => x.list_id = l.id)).length := h.1
      unfold stepItemOp ItemsComponent.move_selected_item_down
      dsimp only
      rw [hget]
      dsimp only
      cases hmd2 : TodoItem.move_down (its.get ⟨j, hj⟩) db with
      | mk mv mdb =>
        have h0 := length_filter_move_down (its.get ⟨j, hj⟩) db l.id
        rw [hmd2] at h0
        have h1 : (mdb.filter (fun x => x.list_id = l.id)).length =
            (db.filter (fun x => x.list_id = l.id)).length := h0
        refine ⟨_, rfl, ?_, ?_⟩
        · unfold lengthSync
          split <;> exact length_get_by_list_id _ _
        · split
          · rename_i hguard
            show j + 1 < (TodoItem.get_by_list_id mdb l.id).length
            exact hguard
          · show j < (TodoItem.get_by_list_id mdb l.id).length
            rw [length_get_by_list_id]
            omega

/-- Claim C2: after any sequence of create, delete, move, toggle, rename
and navigation operations started in an invariant state, the run completes
without any out-of-bounds element access, and the element cursor is either
`None` or a valid index into the current snapshot, so every
cursor-dereferencing operation acts on an existing element.  The
navigation operations are modelled from the spec (4.3: clamped at bounds,
no-op on an empty collection), since ratatui ListState is outside the
repository. -/
theorem cursor_always_valid (ops : List ItemOp) (s : UIList × List TodoItem)
    (h : StateInv s) :
    ∃ s', runItemOps ops s = some s' ∧ StateInv s' ∧
      ∀ j, s'.1.item_state = some j → j < s'.1.items.length := by
  induction ops generalizing s with
  | nil =>
    exact ⟨s, rfl, h, (cursorValid_iff s.1).mp h.2⟩
  | cons op ops ih =>
    obtain ⟨s1, hs1, hinv1⟩ := stepItemOp_preserves op s h
    obtain ⟨s', hrun, hinv, hvalid⟩ := ih s1 hinv1
    refine ⟨s', ?_, hinv, hvalid⟩
    unfold runItemOps
    rw [hs1]
    exact hrun

/-- Witness for C2: a mixed sequence of navigation, move, delete, toggle
and create operations on a three-element scope. -/
theorem cursor_always_valid_witness :
    ∃ s', runItemOps [ItemOp.selNext, ItemOp.moveUp, ItemOp.deleteSel,
        ItemOp.toggle 5, ItemOp.createNew "bread" 6 30, ItemOp.selLast]
      (sampleUIMove, swapDb) = some s' ∧ StateInv s' ∧
      ∀ j, s'.1.item_state = some j → j < s'.1.items.length :=
  cursor_always_valid
    [ItemOp.selNext, ItemOp.moveUp, ItemOp.deleteSel,
      ItemOp.toggle 5, ItemOp.createNew "bread" 6 30, ItemOp.selLast]
    (sampleUIMove, swapDb)
    ⟨by unfold lengthSync; decide,
     by show (1 : Nat) < sampleUIMove.items.length; decide⟩
